import Mathlib

/-!
Verification development for the ZipAct experiment harness.

The Python sources are embedded shallowly: pure string manipulation becomes
Lean functions on `String` / `List Char`, the mutable agent/client state
becomes explicit state passing, JSON values become an inductive type, and
code that can raise exceptions returns `Except Unit _` (the error carries no
payload; any raised exception is modelled as `.error ()`).
-/

namespace ZipAct

/-! ## Python string primitives -/

/-- The whitespace characters stripped by Python `str.strip()` (ASCII part:
space, tab, newline, carriage return, vertical tab, form feed). -/
def pyIsSpace (c : Char) : Bool :=
  c = ' ' || c = '\t' || c = '\n' || c = '\r' || c = '\x0b' || c = '\x0c'

/-- Python `str.strip()` restricted to ASCII whitespace. -/
def pyStrip (s : String) : String :=
  String.mk (((s.data.dropWhile pyIsSpace).reverse.dropWhile pyIsSpace).reverse)

/-- Literal match of `pat` against the start of `cs`. -/
def startsWithL : List Char → List Char → Bool
  | [], _ => true
  | _ :: _, [] => false
  | a :: as, c :: cs => a = c && startsWithL as cs

/-- Python `str.split(sep)` for a nonempty separator: cut at every
non-overlapping occurrence, scanning left to right.  Each step consumes at
least one character, so fuel `length + 1` never runs out. -/
def splitOnAuxL : Nat → List Char → List Char → List Char → List (List Char)
  | 0, _, cs, acc => [acc.reverse ++ cs]
  | _ + 1, _, [], acc => [acc.reverse]
  | fuel + 1, sep, c :: rest, acc =>
    if startsWithL sep (c :: rest) then
      acc.reverse :: splitOnAuxL fuel sep ((c :: rest).drop sep.length) []
    else
      splitOnAuxL fuel sep rest (c :: acc)

def pySplit (s sep : String) : List String :=
  (splitOnAuxL (s.length + 1) sep.data s.data []).map String.mk

/-- Python `str.replace(old, new)` for nonempty `old`: replace every
non-overlapping occurrence, scanning left to right. -/
def replaceAuxL : Nat → List Char → List Char → List Char → List Char
  | 0, _, _, cs => cs
  | _ + 1, _, _, [] => []
  | fuel + 1, old, new, c :: rest =>
    if startsWithL old (c :: rest) then
      new ++ replaceAuxL fuel old new ((c :: rest).drop old.length)
    else c :: replaceAuxL fuel old new rest

def pyReplace (s old new : String) : String :=
  String.mk (replaceAuxL (s.length + 1) old.data new.data s.data)

/-- Python `sub in s` for nonempty `sub`: substring containment. -/
def pyContainsSub (sub s : String) : Bool :=
  (pySplit s sub).length > 1

/-! ## Thought/action parsing (`ZipActAgent._parse_thought_action`,
identical to `ReActAgent._parse_thought_action`; the ALFWorld branch of
`ObservationMaskingAgent._parse_thought_action` uses the same verb list). -/

/-- Word characters of the regex `\b` boundary (ASCII `\w`). -/
def isWordChar (c : Char) : Bool :=
  c.isAlphanum || c = '_'

/-- The fixed alternation of the fallback regex
`\b(go to|take|put|open|close|clean|heat|cool|toggle|use|look|inventory)\b.+`
in source order. -/
def alfworldVerbs : List (List Char) :=
  [ "go to".data, "take".data, "put".data, "open".data, "close".data,
    "clean".data, "heat".data, "cool".data, "toggle".data, "use".data,
    "look".data, "inventory".data ]

/-- Case-insensitive literal match of `alt` against the start of `cs`
(`re.IGNORECASE`, ASCII case folding). -/
def matchCI : List Char → List Char → Bool
  | [], _ => true
  | _ :: _, [] => false
  | a :: as, c :: cs => a.toLower = c.toLower && matchCI as cs

/-- Attempt the regex at one position of the text.  `prev` is the character
before the position (for the leading `\b`).  Each alternative is a word
ending in a word character, so the trailing `\b` requires the next character
to be a non-word character; `.+` then requires that same character to exist
and not be a newline, and greedily extends to the end of the line.  On
success the matched substring (`group(0)`, original casing) is returned. -/
def tryVerbAt (prev : Option Char) (cs : List Char) : Option (List Char) :=
  let boundary := match prev with
    | none => true
    | some p => !isWordChar p
  if boundary then
    alfworldVerbs.findSome? (fun alt =>
      if matchCI alt cs then
        match cs.drop alt.length with
        | [] => none
        | c :: _ =>
          if !isWordChar c && c ≠ '\n' then
            some (cs.take alt.length ++ (cs.drop alt.length).takeWhile (· ≠ '\n'))
          else none
      else none)
  else none

/-- `re.search` for the fallback pattern: scan positions left to right and
return the first match. -/
def searchVerbAux : Option Char → List Char → Option (List Char)
  | _, [] => none
  | prev, c :: rest =>
    match tryVerbAt prev (c :: rest) with
    | some m => some m
    | none => searchVerbAux (some c) rest

/-- The environment fallback regex search over the whole response text. -/
def searchVerbCommand (text : String) : Option String :=
  (searchVerbAux none text.data).map String.mk

/-- One line of the prefix scan: a stripped line starting with `Thought:`
replaces the thought, otherwise one starting with `Action:` replaces the
action (later lines win, `str.replace` removes every occurrence of the
marker). -/
def scanLine (ta : String × String) (line : String) : String × String :=
  let line := pyStrip line
  if startsWithL "Thought:".data line.data then
    (pyStrip (pyReplace line "Thought:" ""), ta.2)
  else if startsWithL "Action:".data line.data then
    (ta.1, pyStrip (pyReplace line "Action:" ""))
  else ta

/-- `ZipActAgent._parse_thought_action` (zipact.py lines 226-248): initialise
`thought = ""`, `action = "look"`, scan the stripped lines for the literal
markers, and only when **both** fields are empty afterwards fall back to the
whole text plus the verb regex. -/
def parseThoughtAction (text : String) : String × String :=
  let ta := (pySplit (pyStrip text) "\n").foldl scanLine ("", "look")
  if ta.1 = "" && ta.2 = "" then
    let thought := pyStrip text
    let action := match searchVerbCommand text with
      | some m => pyStrip m
      | none => ta.2
    (thought, action)
  else ta

/-! ## LLM client (`src/llm/client.py`) -/

/-- The mutable counters of `LLMClient`. -/
structure ClientState where
  total_input_tokens : Nat
  total_output_tokens : Nat
  call_count : Nat
deriving DecidableEq

/-- Counters directly after `__init__` (all zero). -/
def ClientState.init : ClientState := ⟨0, 0, 0⟩

/-- Outcome of one underlying chat-completion API call: either a reply with
the token counts that `chat` records for it (from `response.usage` or from
the tiktoken estimate), or a raised exception. -/
inductive ApiOutcome where
  | success (promptTokens completionTokens : Nat) (content : String)
  | failure (message : String)
deriving DecidableEq

/-- `LLMClient.chat` (client.py lines 38-79): the call counter is incremented
before the API call; on success the per-call token counts are added to the
cumulative totals and the content is returned; any exception is caught,
logged, and the empty string is returned. -/
def chat (c : ClientState) (o : ApiOutcome) : ClientState × String :=
  let c1 : ClientState := { c with call_count := c.call_count + 1 }
  match o with
  | .failure _ => (c1, "")
  | .success pt ct content =>
    ({ c1 with
        total_input_tokens := c1.total_input_tokens + pt,
        total_output_tokens := c1.total_output_tokens + ct }, content)

/-- `LLMClient.get_token_usage` (client.py lines 91-97). -/
structure TokenUsage where
  input_tokens : Nat
  output_tokens : Nat
  total_tokens : Nat
deriving DecidableEq

def getTokenUsage (c : ClientState) : TokenUsage :=
  ⟨c.total_input_tokens, c.total_output_tokens,
    c.total_input_tokens + c.total_output_tokens⟩

/-- `LLMClient.reset_token_count` (client.py lines 99-103): all three
counters are set to zero. -/
def resetTokenCount (_c : ClientState) : ClientState := ⟨0, 0, 0⟩

/-! ## JSON values

Python objects produced by `json.loads`: dictionaries are insertion-ordered
association lists with unique keys, numbers keep their source lexeme (their
numeric value is never inspected by the code under verification). -/

inductive Json where
  | null : Json
  | bool (b : Bool) : Json
  | num (lex : String) : Json
  | str (s : String) : Json
  | arr (elts : List Json) : Json
  | obj (fields : List (String × Json)) : Json

mutual

def Json.beq : Json → Json → Bool
  | .null, .null => true
  | .bool a, .bool b => a == b
  | .num a, .num b => a == b
  | .str a, .str b => a == b
  | .arr xs, .arr ys => Json.beqList xs ys
  | .obj xs, .obj ys => Json.beqFields xs ys
  | _, _ => false

def Json.beqList : List Json → List Json → Bool
  | [], [] => true
  | x :: xs, y :: ys => Json.beq x y && Json.beqList xs ys
  | _, _ => false

def Json.beqFields : List (String × Json) → List (String × Json) → Bool
  | [], [] => true
  | (k1, v1) :: xs, (k2, v2) :: ys => k1 == k2 && Json.beq v1 v2 && Json.beqFields xs ys
  | _, _ => false

end

def Json.isObj : Json → Bool
  | .obj _ => true
  | _ => false

/-- A numeric lexeme denotes zero iff every mantissa digit is `0`
(the exponent part cannot change that); `NaN` and `Infinity` are nonzero. -/
def numLexIsZero (s : String) : Bool :=
  let cs := match s.data with
    | '-' :: t => t
    | t => t
  match cs with
  | c :: _ =>
    c.isDigit &&
      (cs.takeWhile (fun d => d ≠ 'e' && d ≠ 'E')).all (fun d => d = '0' || d = '.')
  | [] => false

/-- Python truthiness of a `json.loads` result (`bool(x)`). -/
def Json.truthy : Json → Bool
  | .null => false
  | .bool b => b
  | .num lex => !numLexIsZero lex
  | .str s => s ≠ ""
  | .arr l => !l.isEmpty
  | .obj l => !l.isEmpty

/-- First-match lookup in a Python dict (keys are unique). -/
def dictLookup : List (String × Json) → String → Option Json
  | [], _ => none
  | (k, v) :: rest, key => if k = key then some v else dictLookup rest key

/-- Python `d[key] = v`: update in place if the key exists, else append. -/
def dictSet : List (String × Json) → String → Json → List (String × Json)
  | [], key, v => [(key, v)]
  | (k, w) :: rest, key, v =>
    if k = key then (k, v) :: rest else (k, w) :: dictSet rest key v

/-- `dict(pairs)`: duplicate keys keep the first position and the last value. -/
def pairsToDict (ps : List (String × Json)) : List (String × Json) :=
  ps.foldl (fun d kv => dictSet d kv.1 kv.2) []

/-! ## `json.loads`

A recursive-descent parser for the grammar accepted by Python's
`json.loads` in its default strict mode: objects, arrays, double-quoted
strings with the standard escapes, numbers (lexemes kept verbatim),
`true`/`false`/`null` and the `NaN`/`Infinity`/`-Infinity` extensions;
whitespace is ` \t\n\r`; no trailing commas; trailing non-whitespace after
the value is an error.  Recursion is by fuel; `jsonLoads` supplies more fuel
than any input can consume. -/

def isJsonWs (c : Char) : Bool :=
  c = ' ' || c = '\t' || c = '\n' || c = '\r'

def skipWs (cs : List Char) : List Char := cs.dropWhile isJsonWs

/-- Value of one hexadecimal digit (both cases accepted, as in `\uXXXX`),
via the character code: 48-57 are the digits, 97-102 and 65-70 the letters. -/
def hexDigitVal (c : Char) : Option Nat :=
  let n := c.toNat
  if 48 ≤ n && n ≤ 57 then some (n - 48)
  else if 97 ≤ n && n ≤ 102 then some (n - 87)
  else if 65 ≤ n && n ≤ 70 then some (n - 55)
  else none

def parseHex4 : List Char → Option (Nat × List Char)
  | c1 :: c2 :: c3 :: c4 :: rest =>
    match hexDigitVal c1, hexDigitVal c2, hexDigitVal c3, hexDigitVal c4 with
    | some a, some b, some c, some d => some (((a * 16 + b) * 16 + c) * 16 + d, rest)
    | _, _, _, _ => none
  | _ => none

/-- Turn a code point into a `Char`.  Python strings may hold lone
surrogates, which Lean's `Char` cannot; those become U+FFFD (the code under
verification never produces or inspects them). -/
def codeChar (n : Nat) : Char :=
  if Nat.isValidChar n then Char.ofNat n else '�'

/-- Body of a JSON string, after the opening quote; `acc` holds the decoded
characters in reverse.  Fuel exceeding the input length never runs out. -/
def parseStringBody : Nat → List Char → List Char → Option (String × List Char)
  | 0, _, _ => none
  | _, [], _ => none
  | fuel + 1, c :: rest, acc =>
    if c = '"' then some (String.mk acc.reverse, rest)
    else if c = '\\' then
      match rest with
      | [] => none
      | e :: rest2 =>
        if e = '"' then parseStringBody fuel rest2 ('"' :: acc)
        else if e = '\\' then parseStringBody fuel rest2 ('\\' :: acc)
        else if e = '/' then parseStringBody fuel rest2 ('/' :: acc)
        else if e = 'b' then parseStringBody fuel rest2 ('\x08' :: acc)
        else if e = 'f' then parseStringBody fuel rest2 ('\x0c' :: acc)
        else if e = 'n' then parseStringBody fuel rest2 ('\n' :: acc)
        else if e = 'r' then parseStringBody fuel rest2 ('\r' :: acc)
        else if e = 't' then parseStringBody fuel rest2 ('\t' :: acc)
        else if e = 'u' then
          match parseHex4 rest2 with
          | none => none
          | some (n, rest3) =>
            if 0xD800 ≤ n && n ≤ 0xDBFF then
              match rest3 with
              | '\\' :: 'u' :: rest4 =>
                match parseHex4 rest4 with
                | some (m, rest5) =>
                  if 0xDC00 ≤ m && m ≤ 0xDFFF then
                    parseStringBody fuel rest5
                      (codeChar (0x10000 + (n - 0xD800) * 0x400 + (m - 0xDC00)) :: acc)
                  else parseStringBody fuel rest3 (codeChar n :: acc)
                | none => parseStringBody fuel rest3 (codeChar n :: acc)
              | _ => parseStringBody fuel rest3 (codeChar n :: acc)
            else parseStringBody fuel rest3 (codeChar n :: acc)
        else none
    else if c.toNat < 0x20 then none
    else parseStringBody fuel rest (c :: acc)

/-- The optional fraction group `(\.\d+)?` of the number regex. -/
def numFrac (cs : List Char) : List Char × List Char :=
  match cs with
  | '.' :: t =>
    let ds := t.takeWhile Char.isDigit
    if ds.isEmpty then ([], cs) else ('.' :: ds, t.drop ds.length)
  | _ => ([], cs)

/-- The optional exponent group `([eE][-+]?\d+)?` of the number regex. -/
def numExp (cs : List Char) : List Char × List Char :=
  match cs with
  | e :: rest =>
    if e = 'e' || e = 'E' then
      let (signPart, rest2) : List Char × List Char :=
        match rest with
        | s :: t => if s = '+' || s = '-' then ([s], t) else ([], rest)
        | [] => ([], rest)
      let ds := rest2.takeWhile Char.isDigit
      if ds.isEmpty then ([], cs)
      else ([e] ++ signPart ++ ds, rest2.drop ds.length)
    else ([], cs)
  | [] => ([], cs)

/-- Python's `NUMBER_RE`, `(-?(?:0|[1-9]\d*))(\.\d+)?([eE][-+]?\d+)?`,
anchored at the start of `cs`; returns the lexeme and the remainder. -/
def parseNumberLex (cs : List Char) : Option (List Char × List Char) :=
  let (sign, cs1) : List Char × List Char :=
    match cs with
    | '-' :: t => (['-'], t)
    | t => ([], t)
  match cs1 with
  | [] => none
  | c :: t =>
    if c = '0' then
      let (fr, r1) := numFrac t
      let (ex, r2) := numExp r1
      some (sign ++ ['0'] ++ fr ++ ex, r2)
    else if c.isDigit then
      let ds := t.takeWhile Char.isDigit
      let (fr, r1) := numFrac (t.drop ds.length)
      let (ex, r2) := numExp r1
      some (sign ++ (c :: ds) ++ fr ++ ex, r2)
    else none

mutual

def parseValue : Nat → List Char → Option (Json × List Char)
  | 0, _ => none
  | fuel + 1, cs =>
    match cs with
    | [] => none
    | '"' :: rest =>
      match parseStringBody (rest.length + 1) rest [] with
      | some (s, r) => some (.str s, r)
      | none => none
    | '{' :: rest =>
      match skipWs rest with
      | '}' :: r2 => some (.obj [], r2)
      | r1 =>
        match parseFields fuel r1 with
        | some (kvs, r2) => some (.obj (pairsToDict kvs), r2)
        | none => none
    | '[' :: rest =>
      match skipWs rest with
      | ']' :: r2 => some (.arr [], r2)
      | r1 =>
        match parseElems fuel r1 with
        | some (vs, r2) => some (.arr vs, r2)
        | none => none
    | _ =>
      if startsWithL "null".data cs then some (.null, cs.drop 4)
      else if startsWithL "true".data cs then some (.bool true, cs.drop 4)
      else if startsWithL "false".data cs then some (.bool false, cs.drop 5)
      else
        match parseNumberLex cs with
        | some (lex, rest) => some (.num (String.mk lex), rest)
        | none =>
          if startsWithL "NaN".data cs then some (.num "NaN", cs.drop 3)
          else if startsWithL "Infinity".data cs then some (.num "Infinity", cs.drop 8)
          else if startsWithL "-Infinity".data cs then some (.num "-Infinity", cs.drop 9)
          else none

def parseElems : Nat → List Char → Option (List Json × List Char)
  | 0, _ => none
  | fuel + 1, cs =>
    match parseValue fuel cs with
    | none => none
    | some (v, r1) =>
      match skipWs r1 with
      | ',' :: r3 =>
        match parseElems fuel (skipWs r3) with
        | none => none
        | some (vs, r4) => some (v :: vs, r4)
      | ']' :: r3 => some ([v], r3)
      | _ => none

def parseFields : Nat → List Char → Option (List (String × Json) × List Char)
  | 0, _ => none
  | fuel + 1, cs =>
    match cs with
    | '"' :: rest =>
      match parseStringBody (rest.length + 1) rest [] with
      | none => none
      | some (k, r1) =>
        match skipWs r1 with
        | ':' :: r3 =>
          match parseValue fuel (skipWs r3) with
          | none => none
          | some (v, r4) =>
            match skipWs r4 with
            | ',' :: r6 =>
              match parseFields fuel (skipWs r6) with
              | none => none
              | some (kvs, r7) => some ((k, v) :: kvs, r7)
            | '}' :: r6 => some ([(k, v)], r6)
            | _ => none
        | _ => none
    | _ => none

end

/-- `json.loads`: skip leading whitespace, parse one value, and require that
only whitespace remains. -/
def jsonLoads (s : String) : Option Json :=
  match parseValue (2 * s.length + 2) (skipWs s.data) with
  | some (v, rest) => if (skipWs rest).isEmpty then some v else none
  | none => none

/-! ## `ZipActAgent._parse_json` (zipact.py lines 202-224) -/

/-- Characters matched by the regex `\s` (ASCII part). -/
def isRegexWs (c : Char) : Bool :=
  c = ' ' || c = '\t' || c = '\n' || c = '\r' || c = '\x0b' || c = '\x0c'

/-- `re.sub(r',(\s*[}\]])', r'\1', s)`: one left-to-right pass removing every
comma that is followed by optional whitespace and a closing brace or
bracket; scanning resumes after the consumed bracket. -/
def stripCommasAux : Nat → List Char → List Char
  | 0, cs => cs
  | _ + 1, [] => []
  | fuel + 1, c :: rest =>
    if c = ',' then
      let ws := rest.takeWhile isRegexWs
      match rest.drop ws.length with
      | b :: rest2 =>
        if b = '}' || b = ']' then ws ++ b :: stripCommasAux fuel rest2
        else ',' :: stripCommasAux fuel rest
      | [] => ',' :: stripCommasAux fuel rest
    else c :: stripCommasAux fuel rest

/-- Every step consumes at least one character, so fuel `length + 1` never
runs out. -/
def stripTrailingCommas (s : String) : String :=
  String.mk (stripCommasAux (s.length + 1) s.data)

/-- The payload handed to `json.loads`: the text between a leading
` ```json ` (or plain ` ``` `) fence and the next fence when a fence marker
occurs, otherwise the whole text, stripped. -/
def extractPayload (text : String) : String :=
  if pyContainsSub "```json" text then
    pyStrip ((pySplit ((pySplit text "```json").getD 1 "") "```").headD "")
  else if pyContainsSub "```" text then
    pyStrip ((pySplit ((pySplit text "```").getD 1 "") "```").headD "")
  else pyStrip text

/-- `ZipActAgent._parse_json`: extract the payload, strip trailing commas,
`json.loads`; any exception yields the supplied default. -/
def parse_json (text : String) (dflt : Json) : Json :=
  match jsonLoads (stripTrailingCommas (extractPayload text)) with
  | some v => v
  | none => dflt

/-! ## Python operations on `json.loads` values

Each models the corresponding Python expression; `.error ()` is a raised
exception (`TypeError`, `KeyError` or `AttributeError`). -/

def jsonListElem (xs : List Json) (v : Json) : Bool :=
  xs.any (fun x => Json.beq x v)

/-- `k in container` for a nonempty string `k`: key lookup on dicts, `==`
membership on lists, substring test on strings, `TypeError` otherwise. -/
def pyIn (k : String) : Json → Except Unit Bool
  | .obj kvs => .ok (dictLookup kvs k).isSome
  | .arr xs => .ok (jsonListElem xs (.str k))
  | .str s => .ok (pyContainsSub k s)
  | _ => .error ()

/-- `container[k]` with a string key: dict lookup (`KeyError` when absent),
`TypeError` on anything else. -/
def pyGetItem (j : Json) (k : String) : Except Unit Json :=
  match j with
  | .obj kvs =>
    match dictLookup kvs k with
    | some v => .ok v
    | none => .error ()
  | _ => .error ()

/-- `container[k] = v` with a string key: dict update, `TypeError` on
anything else. -/
def pySetItem (j : Json) (k : String) (v : Json) : Except Unit Json :=
  match j with
  | .obj kvs => .ok (.obj (dictSet kvs k v))
  | _ => .error ()

/-- `d.get(k, dflt)`: `AttributeError` unless `d` is a dict. -/
def pyDictGet (j : Json) (k : String) (dflt : Json) : Except Unit Json :=
  match j with
  | .obj kvs => .ok ((dictLookup kvs k).getD dflt)
  | _ => .error ()

/-- `l.append(v)`: `AttributeError` unless `l` is a list. -/
def pyListAppend (j : Json) (v : Json) : Except Unit Json :=
  match j with
  | .arr xs => .ok (.arr (xs ++ [v]))
  | _ => .error ()

/-! ## `ZipActAgent` state operations (zipact.py) -/

/-- The goal-tracking group of the empty-state template. -/
def zipEmptyGoal : List (String × Json) :=
  [ ("global_instruction", .str "")
  , ("sub_goal_queue", .arr [])
  , ("current_objective", .str "") ]

/-- The world-tracking group of the empty-state template. -/
def zipEmptyWorld : List (String × Json) :=
  [ ("location", .str "unknown")
  , ("inventory", .arr [])
  , ("entity_map", .obj [])
  , ("discovered_objects", .arr []) ]

/-- The constraint-tracking group of the empty-state template. -/
def zipEmptyCS : List (String × Json) :=
  [ ("negative_constraints", .arr [])
  , ("visited_locations", .arr [])
  , ("attempted_actions", .arr []) ]

/-- The fields of the empty-state template. -/
def zipEmptyFields : List (String × Json) :=
  [ ("goal_state", .obj zipEmptyGoal)
  , ("world_state", .obj zipEmptyWorld)
  , ("constraint_state", .obj zipEmptyCS) ]

/-- `ZipActAgent._get_empty_state` (zipact.py lines 250-269). -/
def zipEmptyState : Json := .obj zipEmptyFields

/-- The dict literal installed at zipact.py line 134 when `constraint_state`
is missing. -/
def freshConstraintState : Json :=
  .obj
    [ ("attempted_actions", .arr [])
    , ("negative_constraints", .arr [])
    , ("visited_locations", .arr []) ]

/-- Lines 131-138 of `_update_state`: the code-level tracking that appends
`last_action` to `constraint_state.attempted_actions` when it is a nonempty
string not already present, materialising the missing substructure first.
`lastAction` is the value of `self.last_action`, known to be a string
(not `None`) at this point. -/
def trackAction (state : Json) (lastAction : String) : Except Unit Json :=
  if lastAction = "" then .ok state
  else do
    let hasCS ← pyIn "constraint_state" state
    let st ← if hasCS then pure state
             else pySetItem state "constraint_state" freshConstraintState
    let cs1 ← pyGetItem st "constraint_state"
    let hasAA ← pyIn "attempted_actions" cs1
    let st2 ← if hasAA then pure st
              else do
                let cs1b ← pySetItem cs1 "attempted_actions" (.arr [])
                pySetItem st "constraint_state" cs1b
    let cs2 ← pyGetItem st2 "constraint_state"
    let aa ← pyGetItem cs2 "attempted_actions"
    let isIn ← pyIn lastAction aa
    if isIn then pure st2
    else do
      let aa2 ← pyListAppend aa (.str lastAction)
      let cs3 ← pySetItem cs2 "attempted_actions" aa2
      pySetItem st2 "constraint_state" cs3

/-- `ZipActAgent._update_state` (zipact.py lines 126-168), given the
updater-model reply `response`: track the last action, parse the reply with
the tracked state as default, and when the parse result is truthy install it,
overriding its `constraint_state["attempted_actions"]` with the tracked list
when it has a `constraint_state` key.  The right-hand side
`self.state.get(...).get(...)` is evaluated before the subscripted target,
as in Python. -/
def updateState (state : Json) (lastAction : String) (response : String) :
    Except Unit Json := do
  let st1 ← trackAction state lastAction
  let newState := parse_json response st1
  if newState.truthy then do
    let hasCS ← pyIn "constraint_state" newState
    if hasCS then do
      let csSelf ← pyDictGet st1 "constraint_state" (.obj [])
      let aaSelf ← pyDictGet csSelf "attempted_actions" (.arr [])
      let csNew ← pyGetItem newState "constraint_state"
      let csNew2 ← pySetItem csNew "attempted_actions" aaSelf
      pySetItem newState "constraint_state" csNew2
    else pure newState
  else pure st1

/-- `ZipActAgent.reset` (zipact.py lines 57-83), given the reply of the
state-initialisation call: parse it with the empty-state template as
default, then if `state.get("goal_state", {}).get("global_instruction")` is
falsy execute `state["goal_state"]["global_instruction"] = instruction`
(which raises `KeyError` when the parsed state has no `goal_state` key). -/
def resetState (instruction : String) (response : String) : Except Unit Json := do
  let st := parse_json response zipEmptyState
  let gs ← pyDictGet st "goal_state" (.obj [])
  let gi ← pyDictGet gs "global_instruction" .null
  if gi.truthy then pure st
  else do
    let gsItem ← pyGetItem st "goal_state"
    let gs2 ← pySetItem gsItem "global_instruction" (.str instruction)
    pySetItem st "goal_state" gs2

/-! ## `run_episode` (run_experiment.py lines 65-123)

The environment is scripted by the index of the `env.step` call: `env i`
gives the reward and done flag returned by the `i`-th call (the agent's
action strings cannot influence this abstraction and are not modelled).
The agent is abstracted to its `current_step` counter, which `reset` zeroes
and whose limit (`BaseAgent.max_steps`, checked by
`is_step_limit_reached`) makes `agent.step` raise `StopIteration`; an
escaped exception is `.error ()`.  The result carries Python's
`return success, total_reward, step + 1`. -/

structure EpisodeResult where
  success : Bool
  totalReward : ℚ
  steps : Nat
deriving DecidableEq

/-- The `for step in range(max_steps)` body: `i` is the loop variable /
agent step counter, `fuel` the remaining iterations. -/
def runEpisodeLoop (env : Nat → ℚ × Bool) (agentLimit : Nat) :
    Nat → Nat → ℚ → Except Unit EpisodeResult
  | i, 0, acc => .ok ⟨false, acc, i⟩
  | i, fuel + 1, acc =>
    if agentLimit ≤ i then .error ()
    else
      let rd := env i
      let acc2 := acc + rd.1
      if rd.2 then .ok ⟨decide (0 < rd.1), acc2, i + 1⟩
      else runEpisodeLoop env agentLimit (i + 1) fuel acc2

/-- `run_episode`: the agent is reset (counter zero), then the loop runs.
With `max_steps = 0` the loop never runs and the trailing
`return success, total_reward, step + 1` raises `NameError` (`step` is
unbound), modelled as `.error ()`. -/
def runEpisode (env : Nat → ℚ × Bool) (agentLimit maxSteps : Nat) :
    Except Unit EpisodeResult :=
  if maxSteps = 0 then .error ()
  else runEpisodeLoop env agentLimit 0 maxSteps 0

/-! ## The experiment main loop (run_experiment.py lines 207-226)

Each episode makes some sequence of LLM calls through the shared client;
after the episode `get_token_usage` is logged and `reset_token_count` runs.
An episode is abstracted by the outcomes of the calls it makes. -/

/-- Thread the shared client through one episode's LLM calls. -/
def runEpisodeCalls (c : ClientState) (calls : List ApiOutcome) : ClientState :=
  calls.foldl (fun s o => (chat s o).1) c

/-- The client states at the start of each episode of the main loop. -/
def mainLoopStarts (c : ClientState) : List (List ApiOutcome) → List ClientState
  | [] => []
  | ep :: rest => c :: mainLoopStarts (resetTokenCount (runEpisodeCalls c ep)) rest

/-- The per-episode token usage logged by the main loop
(`llm.get_token_usage()` right after `run_episode`, before the reset). -/
def mainLoopUsages (c : ClientState) : List (List ApiOutcome) → List TokenUsage
  | [] => []
  | ep :: rest =>
    getTokenUsage (runEpisodeCalls c ep)
      :: mainLoopUsages (resetTokenCount (runEpisodeCalls c ep)) rest

/-! ## `Logger.save_summary` (logger.py lines 71-108)

An episode record as assembled by `end_episode`: `num_steps` is the number
of logged steps, `token_usage` always carries the keys produced by
`get_token_usage`.  Averages and rates are exact rationals (Python computes
them in floating point; none of the claims depend on rounding). -/

structure EpisodeLog where
  success : Bool
  num_steps : Nat
  reward : ℚ
  input_tokens : Nat
  output_tokens : Nat
deriving DecidableEq

structure Summary where
  total_episodes : Nat
  successful_episodes : Nat
  success_rate : ℚ
  avg_steps : ℚ
  avg_reward : ℚ
  total_input_tokens : Nat
  total_output_tokens : Nat
  total_tokens : Nat
  avg_tokens_per_episode : ℚ
deriving DecidableEq

/-- `Logger.save_summary`: returns early (no summary) on an empty episode
list. -/
def saveSummary (eps : List EpisodeLog) : Option Summary :=
  if eps.isEmpty then none
  else
    let total := eps.length
    let succ := (eps.filter (fun e => e.success)).length
    let totalIn := (eps.map (fun e => e.input_tokens)).sum
    let totalOut := (eps.map (fun e => e.output_tokens)).sum
    some
      { total_episodes := total
      , successful_episodes := succ
      , success_rate := if 0 < total then (succ : ℚ) / total else 0
      , avg_steps := ((eps.map (fun e => e.num_steps)).sum : ℚ) / total
      , avg_reward := (eps.map (fun e => e.reward)).sum / total
      , total_input_tokens := totalIn
      , total_output_tokens := totalOut
      , total_tokens := totalIn + totalOut
      , avg_tokens_per_episode :=
          if 0 < total then ((totalIn + totalOut : Nat) : ℚ) / total else 0 }

/-! ## `ObservationMaskingAgent.step` history construction
(observation_masking.py lines 66-124)

At the point the history is built, the current observation has been
appended; thoughts and actions still hold only the previous steps'
entries. -/

/-- Lines 78-96: one history entry block per stored observation; an
observation older than the `keep_recent` most recent ones is replaced by
the literal masking string (`i < len(observations) - keep_recent`, which in
Python-integer arithmetic agrees with truncated `Nat` subtraction since
`i ≥ 0`). -/
def buildMaskedHistory (observations thoughts actions : List String)
    (keepRecent : Nat) : List String :=
  (List.range observations.length).flatMap (fun i =>
    let obsText :=
      if i < observations.length - keepRecent then "[Observation masked]"
      else observations.getD i ""
    (("Observation " ++ toString (i + 1) ++ ": " ++ obsText)
        :: (if i < thoughts.length then
              ["Thought " ++ toString (i + 1) ++ ": " ++ thoughts.getD i ""]
            else []))
      ++ (if i < actions.length then
            ["Action " ++ toString (i + 1) ++ ": " ++ actions.getD i ""]
          else []))

/-- The history built inside `step`: the new observation is appended first
(line 75), then the blocks are assembled. -/
def obsMaskStepHistory (prevObs : List String) (newObs : String)
    (thoughts actions : List String) (keepRecent : Nat) : List String :=
  buildMaskedHistory (prevObs ++ [newObs]) thoughts actions keepRecent

/-- Modelled from the claim's wording, for comparison with the code: with
`t` observations stored, the most recent `min t keepRecent` observations
appear verbatim, every older observation is replaced by the literal
masking string, and all stored thoughts and actions appear unmasked in
order. -/
def specMaskedHistory (observations thoughts actions : List String)
    (keepRecent : Nat) : List String :=
  let t := observations.length
  let verbatim := min t keepRecent
  (List.range t).flatMap (fun i =>
    let obsText :=
      if t - verbatim ≤ i then observations.getD i ""
      else "[Observation masked]"
    (("Observation " ++ toString (i + 1) ++ ": " ++ obsText)
        :: (if i < thoughts.length then
              ["Thought " ++ toString (i + 1) ++ ": " ++ thoughts.getD i ""]
            else []))
      ++ (if i < actions.length then
            ["Action " ++ toString (i + 1) ++ ": " ++ actions.getD i ""]
          else []))

/-! ## Support definitions for the claims -/

/-- The `constraint_state.attempted_actions` list of a state (`[]` when the
path is absent). -/
def attemptedActions (j : Json) : List Json :=
  match j with
  | .obj kvs =>
    match dictLookup kvs "constraint_state" with
    | some (.obj ckvs) =>
      match dictLookup ckvs "attempted_actions" with
      | some (.arr l) => l
      | _ => []
    | _ => []
  | _ => []

/-- The list produced by the code-level tracking: the previous list, with
the last action appended exactly once when it is a nonempty string not
already present. -/
def trackList (l : List Json) (a : String) : List Json :=
  if a = "" then l
  else if jsonListElem l (.str a) then l else l ++ [.str a]

/-- The state is a dict whose `constraint_state`, when present, is a dict
whose `attempted_actions`, when present, is a list. -/
def stateCSOK (j : Json) : Bool :=
  match j with
  | .obj kvs =>
    match dictLookup kvs "constraint_state" with
    | none => true
    | some (.obj ckvs) =>
      match dictLookup ckvs "attempted_actions" with
      | none => true
      | some (.arr _) => true
      | some _ => false
    | some _ => false
  | _ => false

/-- The updater reply either fails to parse, parses to a falsy value, or
parses to an object whose `constraint_state` is itself an object. -/
def updaterReplyOK (response : String) : Bool :=
  match jsonLoads (stripTrailingCommas (extractPayload response)) with
  | none => true
  | some v =>
    if v.truthy then
      match v with
      | .obj kvs =>
        match dictLookup kvs "constraint_state" with
        | some (.obj _) => true
        | _ => false
      | _ => false
    else true

/-- The state `reset` works on (the parsed reply, or the empty-state
template on parse failure) is an object whose `goal_state` is an object. -/
def resetReplyOK (response : String) : Bool :=
  match parse_json response zipEmptyState with
  | .obj kvs =>
    match dictLookup kvs "goal_state" with
    | some (.obj _) => true
    | _ => false
  | _ => false

/-- The `goal_state.global_instruction` value of the state `reset` works on
(`null` when absent). -/
def parsedGlobalInstruction (response : String) : Json :=
  match parse_json response zipEmptyState with
  | .obj kvs =>
    match dictLookup kvs "goal_state" with
    | some (.obj gkvs) => (dictLookup gkvs "global_instruction").getD .null
    | _ => .null
  | _ => .null

/-- A scripted environment that never reports done and gives no reward. -/
def neverDoneEnv : Nat → ℚ × Bool := fun _ => (0, false)

/-- The state `_update_state` leaves when called on the empty-state template
with last action `look` and an unparseable reply: the template with `look`
tracked. -/
def c3StateAfter : Json :=
  .obj
    [ ("goal_state", .obj zipEmptyGoal)
    , ("world_state", .obj zipEmptyWorld)
    , ("constraint_state", .obj
        [ ("negative_constraints", .arr [])
        , ("visited_locations", .arr [])
        , ("attempted_actions", .arr [.str "look"]) ]) ]

/-- Two concrete episode records for evaluating `saveSummary`. -/
def c8Episodes : List EpisodeLog :=
  [ ⟨true, 3, 1, 10, 20⟩, ⟨false, 5, 0, 30, 40⟩ ]

/-! ## Dictionary lemmas -/

theorem dictLookup_dictSet_self (kvs : List (String × Json)) (k : String) (v : Json) :
    dictLookup (dictSet kvs k v) k = some v := by
  induction kvs with
  | nil => simp [dictSet, dictLookup]
  | cons kv rest ih =>
    obtain ⟨k1, v1⟩ := kv
    by_cases h : k1 = k
    · simp [dictSet, dictLookup, h]
    · simp [dictSet, dictLookup, h, ih]

theorem dictSet_dictSet_self (kvs : List (String × Json)) (k : String) (v w : Json) :
    dictSet (dictSet kvs k v) k w = dictSet kvs k w := by
  induction kvs with
  | nil => simp [dictSet]
  | cons kv rest ih =>
    obtain ⟨k1, v1⟩ := kv
    by_cases h : k1 = k
    · simp [dictSet, h]
    · simp [dictSet, h, ih]

theorem dictSet_ne_nil (kvs : List (String × Json)) (k : String) (v : Json) :
    dictSet kvs k v ≠ [] := by
  cases kvs with
  | nil => simp [dictSet]
  | cons kv rest =>
    obtain ⟨k1, v1⟩ := kv
    by_cases h : k1 = k <;> simp [dictSet, h]

theorem dictLookup_ne_nil {kvs : List (String × Json)} {k : String} {v : Json}
    (h : dictLookup kvs k = some v) : kvs ≠ [] := by
  cases kvs with
  | nil => simp [dictLookup] at h
  | cons kv rest => simp

theorem jsonListElem_nil (v : Json) : jsonListElem [] v = false := rfl

/-- Behaviour of the tracking block (zipact.py lines 131-138) on a
well-formed state: it succeeds, and afterwards
`constraint_state.attempted_actions` holds exactly the tracked list. -/
theorem trackAction_ok (kvs : List (String × Json)) (a : String)
    (h1 : stateCSOK (.obj kvs) = true) (ha : a ≠ "") :
    ∃ kvs2 ckvs2, trackAction (.obj kvs) a = .ok (.obj kvs2) ∧
      dictLookup kvs2 "constraint_state" = some (.obj ckvs2) ∧
      dictLookup ckvs2 "attempted_actions" =
        some (.arr (trackList (attemptedActions (.obj kvs)) a)) ∧
      kvs2 ≠ [] := by
  rcases hcs : dictLookup kvs "constraint_state" with _ | cs
  · simp [trackAction, ha, pyIn, hcs, pySetItem, pyGetItem, pyListAppend,
          freshConstraintState, dictLookup_dictSet_self, dictSet_dictSet_self,
          jsonListElem_nil, dictLookup, attemptedActions, trackList, dictSet_ne_nil,
          Bind.bind, Except.bind, pure, Except.pure]
  · have hobj : ∃ ckvs, cs = Json.obj ckvs := by
      simp only [stateCSOK, hcs] at h1
      rcases cs with _ | _ | _ | _ | _ | o <;> simp_all
    obtain ⟨ckvs, rfl⟩ := hobj
    rcases haa : dictLookup ckvs "attempted_actions" with _ | aa
    · simp [trackAction, ha, pyIn, hcs, haa, pySetItem, pyGetItem, pyListAppend,
            dictLookup_dictSet_self, dictSet_dictSet_self, jsonListElem_nil,
            attemptedActions, trackList, dictSet_ne_nil,
            Bind.bind, Except.bind, pure, Except.pure]
    · have harr : ∃ l, aa = Json.arr l := by
        simp only [stateCSOK, hcs, haa] at h1
        rcases aa with _ | _ | _ | _ | ll | _ <;> simp_all
      obtain ⟨l, rfl⟩ := harr
      by_cases hin : jsonListElem l (.str a) = true
      · refine ⟨kvs, ckvs, ?_, hcs, ?_, dictLookup_ne_nil hcs⟩
        · simp [trackAction, ha, pyIn, hcs, haa, hin, pySetItem, pyGetItem, pyListAppend,
                Bind.bind, Except.bind, pure, Except.pure]
        · simp [haa, attemptedActions, hcs, trackList, ha, hin]
      · simp only [Bool.not_eq_true] at hin
        simp [trackAction, ha, pyIn, hcs, haa, hin, pySetItem, pyGetItem, pyListAppend,
              dictLookup_dictSet_self, dictSet_dictSet_self,
              attemptedActions, trackList, dictSet_ne_nil,
              Bind.bind, Except.bind, pure, Except.pure]

/-- Invariant of the episode loop of `run_episode`, by induction on the
remaining iterations. -/
theorem runEpisodeLoop_spec (env : Nat → ℚ × Bool) (aL : Nat) :
    ∀ fuel i acc, 1 ≤ fuel → i + fuel ≤ aL →
    ∃ r, runEpisodeLoop env aL i fuel acc = .ok r ∧
      i + 1 ≤ r.steps ∧ r.steps ≤ i + fuel ∧
      (∀ j, i ≤ j → j + 1 < r.steps → (env j).2 = false) ∧
      (r.steps < i + fuel → (env (r.steps - 1)).2 = true) ∧
      ((env (r.steps - 1)).2 = true → r.success = decide (0 < (env (r.steps - 1)).1)) ∧
      ((env (r.steps - 1)).2 = false → r.success = false) := by
  intro fuel
  induction fuel with
  | zero => intro i acc h1 h2; exact absurd h1 (by omega)
  | succ f ih =>
    intro i acc h1 h2
    have hlt : ¬ aL ≤ i := by omega
    cases hd : (env i).2 with
    | true =>
      refine ⟨⟨decide (0 < (env i).1), acc + (env i).1, i + 1⟩, ?_, ?_, ?_, ?_, ?_, ?_, ?_⟩
      · simp [runEpisodeLoop, hlt, hd]
      · show i + 1 ≤ i + 1; omega
      · show i + 1 ≤ i + (f + 1); omega
      · show ∀ j, i ≤ j → j + 1 < i + 1 → (env j).2 = false
        intro j hj1 hj2; exact absurd hj2 (by omega)
      · intro _; show (env (i + 1 - 1)).2 = true; simpa using hd
      · intro _; rfl
      · show (env (i + 1 - 1)).2 = false → _
        rw [show i + 1 - 1 = i from rfl, hd]
        intro hcon; exact absurd hcon (by simp)
    | false =>
      cases f with
      | zero =>
        refine ⟨⟨false, acc + (env i).1, i + 1⟩, ?_, ?_, ?_, ?_, ?_, ?_, ?_⟩
        · simp [runEpisodeLoop, hlt, hd]
        · show i + 1 ≤ i + 1; omega
        · show i + 1 ≤ i + 1; omega
        · show ∀ j, i ≤ j → j + 1 < i + 1 → (env j).2 = false
          intro j hj1 hj2; exact absurd hj2 (by omega)
        · show i + 1 < i + 1 → _
          intro hcon; exact absurd hcon (by omega)
        · show (env (i + 1 - 1)).2 = true → _
          rw [show i + 1 - 1 = i from rfl, hd]
          intro hcon; exact absurd hcon (by simp)
        · intro _; rfl
      | succ f2 =>
        obtain ⟨r, hr, hb1, hb2, hall, hc, hdn, hnd⟩ :=
          ih (i + 1) (acc + (env i).1) (by omega) (by omega)
        refine ⟨r, ?_, by omega, by omega, ?_, ?_, hdn, hnd⟩
        · simpa [runEpisodeLoop, hlt, hd] using hr
        · intro j hj1 hj2
          rcases Nat.eq_or_lt_of_le hj1 with he | hgt
          · rw [← he]; exact hd
          · exact hall j (by omega) hj2
        · intro hlt2; exact hc (by omega)

/-! ## The claims -/

/-- C1 (counterexample): the claim says every `_update_state` call leaves
`constraint_state.attempted_actions` equal to the code-tracked list,
overriding the model reply.  On the empty-state template with last action
`look` and the parseable reply `{"goal_state": {}}` the resulting state has
no `constraint_state` key at all, so the tracked list (`["look"]`) is
dropped rather than enforced. -/
theorem update_state_drops_tracked_list :
    updateState zipEmptyState "look" "\x7b\"goal_state\": \x7b\x7d\x7d"
      = Except.ok (Json.obj [("goal_state", Json.obj [])]) ∧
    dictLookup [("goal_state", Json.obj [])] "constraint_state" = none ∧
    trackList (attemptedActions zipEmptyState) "look" = [Json.str "look"] :=
  ⟨rfl, rfl, rfl⟩

/-- C1 (amended): whenever the previous state is a dict whose
`constraint_state`/`attempted_actions` substructure is well-typed, the last
action is a nonempty string, and the updater reply fails to parse, parses to
a falsy value, or parses to an object that has a `constraint_state` object,
`_update_state` succeeds and the resulting state's
`constraint_state.attempted_actions` equals the code-tracked list: all
previously tracked actions in order with the last action appended exactly
once if not already present, overriding whatever the reply contains for that
field. -/
theorem update_state_tracked_override (state : Json) (a response : String)
    (h1 : stateCSOK state = true) (ha : a ≠ "")
    (hok : updaterReplyOK response = true) :
    ∃ kvs2 ckvs2, updateState state a response = .ok (.obj kvs2) ∧
      dictLookup kvs2 "constraint_state" = some (.obj ckvs2) ∧
      dictLookup ckvs2 "attempted_actions" =
        some (.arr (trackList (attemptedActions state) a)) := by
  have hstobj : ∃ kvs, state = Json.obj kvs := by
    rcases state with _ | _ | _ | _ | _ | kvs <;> simp_all [stateCSOK]
  obtain ⟨kvs, rfl⟩ := hstobj
  obtain ⟨kvs2, ckvs2, htr, hlc, hla, hne⟩ := trackAction_ok kvs a h1 ha
  have hkE : kvs2.isEmpty = false := by
    cases kvs2 with
    | nil => exact absurd rfl hne
    | cons x xs => rfl
  rcases hp : jsonLoads (stripTrailingCommas (extractPayload response)) with _ | v
  · simp [updateState, htr, parse_json, hp, Json.truthy, hkE, pyIn, hlc, pyDictGet, hla,
          pyGetItem, pySetItem, dictLookup_dictSet_self, dictSet_dictSet_self,
          Bind.bind, Except.bind, pure, Except.pure]
  · by_cases htv : v.truthy = true
    · have hvd : ∃ nkvs nckvs, v = Json.obj nkvs ∧
          dictLookup nkvs "constraint_state" = some (Json.obj nckvs) := by
        simp only [updaterReplyOK, hp, htv, if_true] at hok
        rcases v with _ | _ | _ | _ | _ | nkvs <;> simp_all
        rcases hl : dictLookup nkvs "constraint_state" with _ | w
        · simp_all
        · rcases w with _ | _ | _ | _ | _ | nckvs <;> simp_all
      obtain ⟨nkvs, nckvs, rfl, hlv⟩ := hvd
      simp [updateState, htr, parse_json, hp, htv, pyIn, hlv, pyDictGet, hlc, hla,
            pyGetItem, pySetItem, dictLookup_dictSet_self, dictSet_dictSet_self,
            Bind.bind, Except.bind, pure, Except.pure]
    · refine ⟨kvs2, ckvs2, ?_, hlc, hla⟩
      simp [updateState, htr, parse_json, hp, htv,
            Bind.bind, Except.bind, pure, Except.pure]

/-- Witness for C1: the amended theorem applied to the empty-state template,
last action `look`, and the reply `{"constraint_state": {}}`. -/
theorem update_state_tracked_override_witness :
    stateCSOK zipEmptyState = true ∧ "look" ≠ "" ∧
    updaterReplyOK "\x7b\"constraint_state\": \x7b\x7d\x7d" = true ∧
    (∃ kvs2 ckvs2,
      updateState zipEmptyState "look" "\x7b\"constraint_state\": \x7b\x7d\x7d"
        = .ok (.obj kvs2) ∧
      dictLookup kvs2 "constraint_state" = some (.obj ckvs2) ∧
      dictLookup ckvs2 "attempted_actions"
        = some (.arr (trackList (attemptedActions zipEmptyState) "look"))) :=
  ⟨rfl, by decide, rfl,
    update_state_tracked_override zipEmptyState "look"
      "\x7b\"constraint_state\": \x7b\x7d\x7d" rfl (by decide) rfl⟩

/-- C2: the claim (and the comment above the fallback in all three parsers)
says that when no line carries a `Thought:` or `Action:` marker the whole
output becomes the thought and the verb regex recovers a command.  Because
`action` is initialised to the truthy string `"look"`, the guard
`not thought and not action` is false in exactly that situation and the
fallback never runs: on `"I will go to the shelf 1"` the parser returns an
empty thought and `look`, although the regex would have recovered
`go to the shelf 1`. -/
theorem parse_thought_action_fallback_dead :
    parseThoughtAction "I will go to the shelf 1" = ("", "look") ∧
    searchVerbCommand "I will go to the shelf 1" = some "go to the shelf 1" :=
  ⟨rfl, rfl⟩

/-- C3 (counterexample): the claim says an unparseable updater reply leaves
`self.state` unchanged.  On the empty-state template with last action
`look` and reply `not json` the state after the call has `look` tracked in
`constraint_state.attempted_actions`, so it differs from the state before. -/
theorem update_state_changes_on_parse_failure :
    updateState zipEmptyState "look" "not json" = Except.ok c3StateAfter ∧
    c3StateAfter ≠ zipEmptyState := by
  refine ⟨rfl, ?_⟩
  intro h
  have h1 : attemptedActions c3StateAfter = [Json.str "look"] := rfl
  rw [h] at h1
  have h2 : attemptedActions zipEmptyState = [] := rfl
  rw [h2] at h1
  exact List.noConfusion h1

/-- C3 (amended): when the updater reply fails to parse, `_update_state`
leaves the state unchanged except for the code-level tracking: the result is
exactly the previous state with the last action appended (once, if nonempty
and not already present) to `constraint_state.attempted_actions`. -/
theorem update_state_parse_failure_tracks_only
    (kvs ckvs : List (String × Json)) (l : List Json) (a response : String)
    (h2 : dictLookup kvs "constraint_state" = some (.obj ckvs))
    (h3 : dictLookup ckvs "attempted_actions" = some (.arr l))
    (hfail : jsonLoads (stripTrailingCommas (extractPayload response)) = none) :
    updateState (.obj kvs) a response =
      .ok (.obj (dictSet kvs "constraint_state"
        (.obj (dictSet ckvs "attempted_actions" (.arr (trackList l a)))))) := by
  have hne : kvs ≠ [] := dictLookup_ne_nil h2
  have hkE : kvs.isEmpty = false := by
    cases kvs with
    | nil => exact absurd rfl hne
    | cons x xs => rfl
  have hparse : ∀ d, parse_json response d = d := by
    intro d; simp [parse_json, hfail]
  by_cases ha : a = ""
  · subst ha
    simp [updateState, trackAction, hparse, Json.truthy, hkE, pyIn, h2, pyDictGet, h3,
          pyGetItem, pySetItem, trackList, Bind.bind, Except.bind, pure, Except.pure]
  · by_cases hin : jsonListElem l (.str a) = true
    · simp [updateState, trackAction, ha, hparse, Json.truthy, hkE, pyIn, h2, pyDictGet, h3,
            pyGetItem, pySetItem, pyListAppend, hin, trackList, Bind.bind, Except.bind,
            pure, Except.pure]
    · simp [updateState, trackAction, ha, hparse, Json.truthy, hkE, pyIn, h2, pyDictGet, h3,
            pyGetItem, pySetItem, pyListAppend, hin, trackList, Bind.bind, Except.bind,
            pure, Except.pure, dictLookup_dictSet_self, dictSet_dictSet_self, dictSet_ne_nil]

/-- Witness for C3: the amended theorem applied to the empty-state template,
last action `look`, reply `not json`. -/
theorem update_state_parse_failure_tracks_only_witness :
    dictLookup zipEmptyFields "constraint_state" = some (.obj zipEmptyCS) ∧
    dictLookup zipEmptyCS "attempted_actions" = some (.arr []) ∧
    jsonLoads (stripTrailingCommas (extractPayload "not json")) = none ∧
    updateState (.obj zipEmptyFields) "look" "not json" =
      .ok (.obj (dictSet zipEmptyFields "constraint_state"
        (.obj (dictSet zipEmptyCS "attempted_actions" (.arr (trackList [] "look")))))) :=
  ⟨rfl, rfl, rfl,
    update_state_parse_failure_tracks_only zipEmptyFields zipEmptyCS [] "look" "not json"
      rfl rfl rfl⟩

/-- C4: every exception from the underlying chat-completion call is caught
by `LLMClient.chat`, which returns the empty string, and the thought/action
parser maps the empty string to an empty thought and the default no-op
action `look`. -/
theorem chat_failure_empty_and_look :
    (∀ (c : ClientState) (msg : String), (chat c (.failure msg)).2 = "") ∧
    parseThoughtAction "" = ("", "look") :=
  ⟨fun _ _ => rfl, rfl⟩

/-- C5: whenever the payload of a reply (the fenced substring when fence
markers occur, the whole text otherwise) parses as a JSON object after the
trailing-comma repair, `_parse_json` returns that parsed object, never the
supplied default. -/
theorem parse_json_returns_parsed_object (text : String) (v d : Json)
    (h1 : jsonLoads (stripTrailingCommas (extractPayload text)) = some v)
    (_h2 : v.isObj = true) :
    parse_json text d = v := by
  simp [parse_json, h1]

/-- Witness for C5: a fenced object with a trailing comma, parsed instead of
the default. -/
theorem parse_json_returns_parsed_object_witness :
    jsonLoads (stripTrailingCommas (extractPayload "```json\n\x7b\"a\": 1,\x7d\n```"))
      = some (Json.obj [("a", Json.num "1")]) ∧
    (Json.obj [("a", Json.num "1")]).isObj = true ∧
    parse_json "```json\n\x7b\"a\": 1,\x7d\n```" (Json.str "default")
      = Json.obj [("a", Json.num "1")] :=
  ⟨rfl, rfl,
    parse_json_returns_parsed_object "```json\n\x7b\"a\": 1,\x7d\n```"
      (Json.obj [("a", Json.num "1")]) (Json.str "default") rfl rfl⟩

/-- C6 (counterexample): the claim says `run_episode` completes for every
`max_steps ≥ 1`, stopping early exactly on done.  With the agent's own step
limit at its default of 50 (never overridden by `run_experiment.main`) and
`max_steps = 51`, the 51st `agent.step` call raises `StopIteration`, which
escapes `run_episode`: no success report is produced although the
environment never returned done. -/
theorem run_episode_step_limit_exception :
    runEpisode neverDoneEnv 50 51 = Except.error () := rfl

/-- C6 (amended): for every `max_steps ≥ 1` that does not exceed the
agent's internal step limit, `run_episode` completes having invoked
`agent.step` exactly `steps ≤ max_steps` times, stops before exhausting the
loop exactly when `env.step` returned done, and reports success iff the
final executed step returned done with a positive reward (success is false
when the loop exhausts without done). -/
theorem run_episode_spec (env : Nat → ℚ × Bool) (aL mS : Nat)
    (h1 : 1 ≤ mS) (h2 : mS ≤ aL) :
    ∃ r, runEpisode env aL mS = .ok r ∧
      1 ≤ r.steps ∧ r.steps ≤ mS ∧
      (∀ j, j + 1 < r.steps → (env j).2 = false) ∧
      (r.steps < mS → (env (r.steps - 1)).2 = true) ∧
      ((env (r.steps - 1)).2 = true → r.success = decide (0 < (env (r.steps - 1)).1)) ∧
      ((env (r.steps - 1)).2 = false → r.success = false) := by
  obtain ⟨r, hr, hb1, hb2, hall, hc, hdn, hnd⟩ :=
    runEpisodeLoop_spec env aL mS 0 0 h1 (by omega)
  have hmS : ¬ mS = 0 := by omega
  refine ⟨r, ?_, by omega, by omega, ?_, ?_, hdn, hnd⟩
  · simpa [runEpisode, hmS] using hr
  · intro j hj; exact hall j (by omega) hj
  · intro hlt2; exact hc (by omega)

/-- Witness for C6: the amended theorem applied to the never-done
environment with agent limit 50 and `max_steps = 3`. -/
theorem run_episode_spec_witness :
    1 ≤ 3 ∧ 3 ≤ 50 ∧
    (∃ r, runEpisode neverDoneEnv 50 3 = .ok r ∧
      1 ≤ r.steps ∧ r.steps ≤ 3 ∧
      (∀ j, j + 1 < r.steps → (neverDoneEnv j).2 = false) ∧
      (r.steps < 3 → (neverDoneEnv (r.steps - 1)).2 = true) ∧
      ((neverDoneEnv (r.steps - 1)).2 = true
        → r.success = decide (0 < (neverDoneEnv (r.steps - 1)).1)) ∧
      ((neverDoneEnv (r.steps - 1)).2 = false → r.success = false)) :=
  ⟨by omega, by omega, run_episode_spec neverDoneEnv 50 3 (by omega) (by omega)⟩

/-- C7: starting from a fresh client, the counters seen at the start of
every episode of the main loop are all zero (`reset_token_count` zeroes all
three after each episode's usage is logged), and each episode's logged token
usage is exactly the usage of its own calls starting from zero. -/
theorem token_counters_reset_per_episode (episodes : List (List ApiOutcome)) :
    mainLoopStarts ClientState.init episodes
      = List.replicate episodes.length ClientState.init ∧
    mainLoopUsages ClientState.init episodes
      = episodes.map (fun ep => getTokenUsage (runEpisodeCalls ClientState.init ep)) := by
  induction episodes with
  | nil => exact ⟨rfl, rfl⟩
  | cons ep rest ih =>
    have hreset : resetTokenCount (runEpisodeCalls ClientState.init ep)
        = ClientState.init := rfl
    refine ⟨?_, ?_⟩
    · simp only [mainLoopStarts, hreset, ih.1, List.length_cons, List.replicate_succ]
    · simp only [mainLoopUsages, hreset, ih.2, List.map_cons]

/-- C8: on a nonempty episode list `save_summary` reports a success rate of
(number of successful episodes) / (number of episodes), an average step
count equal to the mean of the logged per-episode step counts, token totals
equal to the sums of the per-episode input and output token counts, and
their sum divided by the episode count as `avg_tokens_per_episode` (exact
rational arithmetic standing for Python's float division). -/
theorem save_summary_spec (eps : List EpisodeLog) (h : eps ≠ []) :
    (saveSummary eps).map Summary.success_rate
        = some (((eps.filter (fun e => e.success)).length : ℚ) / eps.length) ∧
    (saveSummary eps).map Summary.avg_steps
        = some (((eps.map (fun e => e.num_steps)).sum : ℚ) / eps.length) ∧
    (saveSummary eps).map Summary.total_input_tokens
        = some (eps.map (fun e => e.input_tokens)).sum ∧
    (saveSummary eps).map Summary.total_output_tokens
        = some (eps.map (fun e => e.output_tokens)).sum ∧
    (saveSummary eps).map Summary.total_tokens
        = some ((eps.map (fun e => e.input_tokens)).sum
            + (eps.map (fun e => e.output_tokens)).sum) ∧
    (saveSummary eps).map Summary.avg_tokens_per_episode
        = some ((((eps.map (fun e => e.input_tokens)).sum
            + (eps.map (fun e => e.output_tokens)).sum : Nat) : ℚ) / eps.length) := by
  have hne : eps.isEmpty = false := by
    cases eps with
    | nil => exact absurd rfl h
    | cons x xs => rfl
  have hpos : 0 < eps.length := by
    cases eps with
    | nil => exact absurd rfl h
    | cons x xs => simp
  refine ⟨?_, ?_, ?_, ?_, ?_, ?_⟩ <;> simp [saveSummary, hne, hpos]

/-- Witness for C8: the summary of two concrete episodes. -/
theorem save_summary_spec_witness :
    c8Episodes ≠ [] ∧
    ((saveSummary c8Episodes).map Summary.success_rate
        = some (((c8Episodes.filter (fun e => e.success)).length : ℚ)
            / c8Episodes.length) ∧
    (saveSummary c8Episodes).map Summary.avg_steps
        = some (((c8Episodes.map (fun e => e.num_steps)).sum : ℚ) / c8Episodes.length) ∧
    (saveSummary c8Episodes).map Summary.total_input_tokens
        = some (c8Episodes.map (fun e => e.input_tokens)).sum ∧
    (saveSummary c8Episodes).map Summary.total_output_tokens
        = some (c8Episodes.map (fun e => e.output_tokens)).sum ∧
    (saveSummary c8Episodes).map Summary.total_tokens
        = some ((c8Episodes.map (fun e => e.input_tokens)).sum
            + (c8Episodes.map (fun e => e.output_tokens)).sum) ∧
    (saveSummary c8Episodes).map Summary.avg_tokens_per_episode
        = some ((((c8Episodes.map (fun e => e.input_tokens)).sum
            + (c8Episodes.map (fun e => e.output_tokens)).sum : Nat) : ℚ)
            / c8Episodes.length)) :=
  ⟨by decide, save_summary_spec c8Episodes (by decide)⟩

/-- C9 (counterexample): the claim says `reset` never raises.  On the reply
`{}` (a parseable object with no `goal_state` key) the assignment
`self.state["goal_state"]["global_instruction"] = instruction` raises
`KeyError`. -/
theorem reset_state_keyerror :
    resetState "do the task" "\x7b\x7d" = Except.error () := rfl

/-- C9 (amended): whenever the instruction is nonempty and the state `reset`
works on (the parsed reply, or the template on parse failure) is an object
whose `goal_state` is an object, `reset` completes and leaves a truthy
`goal_state.global_instruction`, equal to the given instruction whenever the
parsed state lacked a truthy one. -/
theorem reset_state_instruction_fallback (instruction response : String)
    (hi : instruction ≠ "") (hok : resetReplyOK response = true) :
    ∃ kvs2 gkvs2 gi, resetState instruction response = .ok (.obj kvs2) ∧
      dictLookup kvs2 "goal_state" = some (.obj gkvs2) ∧
      dictLookup gkvs2 "global_instruction" = some gi ∧
      gi.truthy = true ∧
      gi = (if (parsedGlobalInstruction response).truthy then
              parsedGlobalInstruction response else .str instruction) := by
  have hd : ∃ kvs gkvs, parse_json response zipEmptyState = Json.obj kvs ∧
      dictLookup kvs "goal_state" = some (Json.obj gkvs) := by
    simp only [resetReplyOK] at hok
    rcases hst : parse_json response zipEmptyState with _ | _ | _ | _ | _ | kvs <;>
      rw [hst] at hok <;> simp_all
    rcases hl : dictLookup kvs "goal_state" with _ | w
    · simp_all
    · rcases w with _ | _ | _ | _ | _ | g <;> simp_all
  obtain ⟨kvs, gkvs, hst, hgs⟩ := hd
  have hpgi : parsedGlobalInstruction response
      = (dictLookup gkvs "global_instruction").getD .null := by
    simp [parsedGlobalInstruction, hst, hgs]
  by_cases htv : ((dictLookup gkvs "global_instruction").getD Json.null).truthy = true
  · have hkey : dictLookup gkvs "global_instruction"
        = some ((dictLookup gkvs "global_instruction").getD Json.null) := by
      rcases hk : dictLookup gkvs "global_instruction" with _ | w
      · rw [hk] at htv; simp [Json.truthy] at htv
      · simp [hk]
    refine ⟨kvs, gkvs, _, ?_, hgs, hkey, htv, ?_⟩
    · simp [resetState, hst, pyDictGet, hgs, htv,
            Bind.bind, Except.bind, pure, Except.pure]
    · rw [hpgi]; simp [htv]
  · refine ⟨dictSet kvs "goal_state"
        (.obj (dictSet gkvs "global_instruction" (.str instruction))), _,
        .str instruction, ?_, dictLookup_dictSet_self .., dictLookup_dictSet_self .., ?_, ?_⟩
    · simp [resetState, hst, pyDictGet, hgs, htv, pyGetItem, pySetItem,
            Bind.bind, Except.bind, pure, Except.pure]
    · simp [Json.truthy, hi]
    · rw [hpgi]
      simp only [Bool.not_eq_true] at htv
      simp [htv]

/-- Witness for C9: the amended theorem applied to a nonempty instruction
and an unparseable initialisation reply, which falls back to the template. -/
theorem reset_state_instruction_fallback_witness :
    "do the task" ≠ "" ∧ resetReplyOK "oops" = true ∧
    (∃ kvs2 gkvs2 gi, resetState "do the task" "oops" = .ok (.obj kvs2) ∧
      dictLookup kvs2 "goal_state" = some (.obj gkvs2) ∧
      dictLookup gkvs2 "global_instruction" = some gi ∧
      gi.truthy = true ∧
      gi = (if (parsedGlobalInstruction "oops").truthy then
              parsedGlobalInstruction "oops" else .str "do the task")) :=
  ⟨by decide, rfl,
    reset_state_instruction_fallback "do the task" "oops" (by decide) rfl⟩

/-- C10: the history built by `ObservationMaskingAgent.step` (with the new
observation appended, so `t` observations are stored at step `t`) equals the
history described by the claim: the most recent `min t keep_recent`
observations verbatim, every older observation replaced by the literal
`[Observation masked]`, and all stored thoughts and actions unmasked in
order. -/
theorem obs_mask_history_spec (prevObs : List String) (newObs : String)
    (thoughts actions : List String) (k : Nat) :
    obsMaskStepHistory prevObs newObs thoughts actions k
      = specMaskedHistory (prevObs ++ [newObs]) thoughts actions k := by
  simp only [obsMaskStepHistory, buildMaskedHistory, specMaskedHistory]
  congr 1
  funext i
  have hmin : (prevObs ++ [newObs]).length - min (prevObs ++ [newObs]).length k
      = (prevObs ++ [newObs]).length - k := by omega
  rw [hmin]
  by_cases hlt : i < (prevObs ++ [newObs]).length - k
  · have hc1 : i < prevObs.length + 1 - k := by simpa using hlt
    have hc2 : ¬ (prevObs.length + 1 ≤ i + k) := by
      simp only [List.length_append, List.length_cons, List.length_nil] at hlt
      omega
    simp [hc1, hc2]
  · have hc1 : ¬ i < prevObs.length + 1 - k := by simpa using hlt
    have hc2 : prevObs.length + 1 ≤ i + k := by
      simp only [List.length_append, List.length_cons, List.length_nil] at hlt
      omega
    simp [hc1, hc2]

end ZipAct
